import Mathlib

/-!
Verification of the financial-RAG chatbot core (backend/app/api/rag_chatbot.py
and backend/app/ingestion/pipeline.py) against its specification.

The code is shallowly embedded: the external collaborators (OpenAI chat
completion, the vector store, the PyPDF2 reader, the LangChain text splitter)
are passed in as oracle functions returning `Except String _` (an `Except.error`
models a raised Python exception), and the orchestrator functions additionally
return an explicit trace of the collaborator calls they performed.
-/

set_option autoImplicit false

namespace RagBot

/-- A heterogeneous metadata value, modelling the values stored in the
Python `Dict[str, Any]` metadata payloads (`str`, `int`, `Optional[str]`). -/
inductive MetaVal where
  | str (s : String)
  | num (n : Nat)
  | optStr (s : Option String)
deriving DecidableEq, Repr

/-- Metadata dictionary attached to a search result; the Python dict may
lack any of these keys, hence the `Option` fields. -/
structure SRMeta where
  filename : Option String
  file_type : Option String
deriving DecidableEq, Repr

/-- One element of the list returned by `vector_store.search_similar_chunks`:
a `Dict[str, Any]` whose keys are read with `.get(key, default)`. -/
structure SearchResult where
  content : Option String
  metadata : Option SRMeta
  relevance_score : Option Int
deriving DecidableEq, Repr

/-- `result.get('content', '')` -/
def contentOf (r : SearchResult) : String := r.content.getD ""

/-- `result.get('metadata', {})` -/
def metaOf (r : SearchResult) : SRMeta := r.metadata.getD ⟨none, none⟩

/-- `result.get('metadata', {}).get('filename', 'Unknown')` -/
def filenameOf (r : SearchResult) : String := (metaOf r).filename.getD "Unknown"

/-- `result.get('metadata', {}).get('file_type', 'unknown')` -/
def fileTypeOf (r : SearchResult) : String := (metaOf r).file_type.getD "unknown"

/-- `result.get('relevance_score', 0)` -/
def scoreOf (r : SearchResult) : Int := r.relevance_score.getD 0

/-- One entry of the sources list built by `_prepare_sources`. -/
structure Source where
  content : String
  metadata : SRMeta
  relevance_score : Int
  document_type : String
deriving DecidableEq, Repr

/-- Pydantic `ChatMessage` (role, content). -/
structure ChatMessage where
  role : String
  content : String
deriving DecidableEq, Repr

/-- Pydantic `ChatRequest`. -/
structure ChatRequest where
  message : String
  document_id : Option String
  conversation_history : List ChatMessage
deriving DecidableEq, Repr

/-- Pydantic `ChatResponse` (response text, sources, metadata dict). -/
structure ChatResponse where
  response : String
  sources : List Source
  metadata : List (String × MetaVal)
deriving DecidableEq, Repr

/-- A call to an external collaborator made while answering a chat message. -/
inductive CallEvent where
  | search (query : String) (topK : Nat) (documentId : Option String)
  | llm (system : String) (user : String)
deriving DecidableEq, Repr

/-- The collaborators of `SimpleRAGChatbot.process_chat_message`:
the configured `settings.rag_top_k_results`, the vector store's
`search_similar_chunks` (which may raise), and the OpenAI chat-completion
call inside `_generate_response` (which may raise). -/
structure ChatEnv where
  rag_top_k_results : Nat
  search : String → Nat → Option String → Except String (List SearchResult)
  llm : String → String → Except String String

/-- Python `str.strip()`: removes leading and trailing whitespace. -/
def pyStrip (s : String) : String :=
  String.mk
    (((s.data.dropWhile Char.isWhitespace).reverse.dropWhile Char.isWhitespace).reverse)

/-- `"\n".join(parts)` — Python `str.join`. -/
def pyJoin (sep : String) : List String → String
  | [] => ""
  | [x] => x
  | x :: y :: rest => x ++ sep ++ pyJoin sep (y :: rest)

/-- The loop body of `_prepare_context_from_search_results`: for each of the
selected results (with running index `i`) it appends the label line
`Source {i+1} (from {filename}):`, the content, and an empty string. -/
def contextParts (i : Nat) : List SearchResult → List String
  | [] => []
  | r :: rest =>
      ("Source " ++ toString (i + 1) ++ " (from " ++ filenameOf r ++ "):")
        :: contentOf r :: "" :: contextParts (i + 1) rest

/-- `SimpleRAGChatbot._prepare_context_from_search_results`. -/
def _prepare_context_from_search_results (rs : List SearchResult) : String :=
  if rs.isEmpty then ""
  else
    pyJoin "\n" ("=== RELEVANT DOCUMENT CONTENT ===" :: contextParts 0 (rs.take 3))

/-- `SimpleRAGChatbot._prepare_sources`: one source dict per search result. -/
def _prepare_sources : List SearchResult → List Source
  | [] => []
  | r :: rest =>
      { content :=
          if (contentOf r).length > 200 then (contentOf r).take 200 ++ "..."
          else contentOf r,
        metadata := metaOf r,
        relevance_score := scoreOf r,
        document_type := fileTypeOf r } :: _prepare_sources rest

/-- The system message of the OpenAI call in `_generate_response`. -/
def systemMessage : String :=
  "You are a helpful financial assistant that answers questions based on provided document context."

/-- The user prompt built by `_generate_response` (an f-string over the
context and the query). -/
def generatePrompt (query context : String) : String :=
  "You are a helpful financial assistant. Answer the user\x27s question based on the provided context from financial documents.\n\nContext from financial documents:\n"
    ++ context
    ++ "\n\nUser Question: " ++ query
    ++ "\n\nInstructions:\n- Provide a clear and accurate answer based on the context provided\n- If the context doesn\x27t contain enough information, clearly state this limitation\n- Use professional financial language\n- Be concise but comprehensive\n- If you find specific numbers, metrics, or data in the context, include them in your answer\n- Always cite which document the information comes from when possible\n\nAnswer:"

/-- `SimpleRAGChatbot._generate_response`: calls the chat-completion
collaborator; on success strips the reply, on any exception returns a fixed
apology (the `try/except` inside `_generate_response` itself). -/
def _generate_response (env : ChatEnv) (query context : String) :
    String × List CallEvent :=
  let user := generatePrompt query context
  match env.llm systemMessage user with
  | Except.ok s => (pyStrip s, [CallEvent.llm systemMessage user])
  | Except.error _ =>
      ("I encountered an error while generating a response. Please try again.",
       [CallEvent.llm systemMessage user])

/-- The `try:` block of `process_chat_message`; an `Except.error` is an
exception escaping the block (only the vector-store search can raise one —
`_generate_response` catches its own). The call trace is returned in either
case. -/
def chatTryBody (env : ChatEnv) (req : ChatRequest) :
    Except String ChatResponse × List CallEvent :=
  let query := pyStrip req.message
  if query = "" then
    (Except.ok
      { response := "Please provide a question about your uploaded documents.",
        sources := [],
        metadata := [("error", MetaVal.str "Empty message")] }, [])
  else
    let ev := CallEvent.search query env.rag_top_k_results req.document_id
    match env.search query env.rag_top_k_results req.document_id with
    | Except.error e => (Except.error e, [ev])
    | Except.ok search_results =>
      if search_results.isEmpty then
        (Except.ok
          { response := "I couldn\x27t find relevant information in the uploaded documents to answer your question. Please make sure you have uploaded PDF documents first.",
            sources := [],
            metadata := [("context_chunks_found", MetaVal.num 0)] }, [ev])
      else
        let context_text := _prepare_context_from_search_results search_results
        let gen := _generate_response env query context_text
        let sources := _prepare_sources search_results
        (Except.ok
          { response := gen.1,
            sources := sources,
            metadata :=
              [("context_chunks_found", MetaVal.num search_results.length),
               ("document_id", MetaVal.optStr req.document_id),
               ("query_type", MetaVal.str "rag")] }, ev :: gen.2)

/-- `SimpleRAGChatbot.process_chat_message`: the `try` block plus the
`except Exception` handler that converts any escaped exception into an
error `ChatResponse`. -/
def process_chat_message (env : ChatEnv) (req : ChatRequest) :
    ChatResponse × List CallEvent :=
  match chatTryBody env req with
  | (Except.ok r, evs) => (r, evs)
  | (Except.error e, evs) =>
      ({ response := "I encountered an error while processing your request. Please try again.",
         sources := [],
         metadata := [("error", MetaVal.str e)] }, evs)

/-- The labeled context blocks of the spec's Context Assembler contract: for
the result at running index `i`, the label line `Source i+1 (from filename):`
followed by the raw chunk text. -/
def sourceBlocks (i : Nat) : List SearchResult → List String
  | [] => []
  | r :: rest =>
      ("Source " ++ toString (i + 1) ++ " (from " ++ filenameOf r ++ "):"
        ++ "\n" ++ contentOf r) :: sourceBlocks (i + 1) rest

/-! ### Ingestion pipeline (backend/app/ingestion/pipeline.py) -/

/-- `PDFProcessor.extract_text`: reads the PDF through the PyPDF2 collaborator
(modelled as an oracle from the raw bytes to either a parse error or the list
of per-page extracted texts), accumulates `page.extract_text() + "\n"` for
each page, and returns the accumulated text stripped; a reader exception
propagates (`raise` in the `except` clause). -/
def extract_text (readPdf : List Nat → Except String (List String))
    (content : List Nat) : Except String String :=
  match readPdf content with
  | Except.error e => Except.error e
  | Except.ok pages =>
      Except.ok (pyStrip (pages.foldl (fun text p => text ++ p ++ "\n") ""))

/-- Page texts, each followed by a newline, concatenated in page order
(the pre-`strip` value accumulated by `extract_text`). -/
def pagesConcat : List String → String
  | [] => ""
  | p :: ps => p ++ "\n" ++ pagesConcat ps

/-- `PDFProcessor.chunk_text`: delegates to the LangChain splitter collaborator
(an oracle from the text to either the chunk list or an internal error); if the
splitter raises, falls back to the naive fixed-window list comprehension
`[text[i:i+C] for i in range(0, len(text), C - O)]` with `C =
settings.max_chunk_size` and `O = settings.chunk_overlap`. -/
def chunk_text (split : List Char → Except String (List (List Char)))
    (C O : Nat) (text : List Char) : List (List Char) :=
  match split text with
  | Except.ok chunks => chunks
  | Except.error _ =>
      (List.range' 0 ((text.length + (C - O) - 1) / (C - O)) (C - O)).map
        (fun i => (text.drop i).take C)

/-- The final path component of a file name (everything after the last `/`). -/
def pyBasename (name : List Char) : List Char :=
  (name.reverse.takeWhile (fun c => c ≠ '/')).reverse

/-- Python `pathlib.Path(filename).suffix`: the part of the base name from its
last dot on, empty when there is no dot, when the dot is the first character
of the base name (hidden files), or when the dot is the last character. -/
def pathSuffix (name : List Char) : List Char :=
  let base := pyBasename name
  let rev := base.reverse
  let pre := rev.takeWhile (fun c => c ≠ '.')
  if pre.length ≠ 0 ∧ pre.length < rev.length ∧ pre.length + 1 < base.length then
    '.' :: pre.reverse
  else []

/-- `DocumentIngestionPipeline.get_file_type`: lower-cases the extension and
accepts only `.pdf`, raising `ValueError` (modelled as `Except.error`) for
every other extension. -/
def get_file_type (filename : String) : Except String String :=
  let ext := String.mk ((pathSuffix filename.data).map Char.toLower)
  if ext = ".pdf" then Except.ok "pdf"
  else Except.error ("Unsupported file type: " ++ ext ++ ". Only PDF files are supported.")

/-- Counts the maximal non-whitespace runs; `inWord` records whether the
previous character was part of a word. -/
def countWords : List Char → Bool → Nat
  | [], _ => 0
  | c :: rest, inWord =>
      if c.isWhitespace then countWords rest false
      else (if inWord then 0 else 1) + countWords rest true

/-- `len(text.split())` — Python whitespace word count (empty pieces from
consecutive whitespace are discarded). -/
def pyWords (text : String) : Nat := countWords text.data false

/-- The metadata dict built by `PDFProcessor.process`. -/
structure PdfMeta where
  total_chunks : Nat
  total_characters : Nat
  total_words : Nat
  chunks : List (List Char)
  full_text : String
deriving DecidableEq, Repr

/-- The metadata dict after `process_document` adds the document fields
(`file_path`, pointing into the excluded on-disk storage area, is omitted). -/
structure DocMeta extends PdfMeta where
  document_id : String
  filename : String
  file_type : String
  status : String
deriving DecidableEq, Repr

/-- One call to `vector_store.add_document_chunks` with its arguments. -/
structure VectorWriteCall where
  document_id : String
  chunks : List (List Char)
  filename : String
  file_type : String
  total_chunks : Nat
deriving DecidableEq, Repr

/-- The collaborators of the ingestion path: the UUID generator of
`save_file`, the PyPDF2 reader, the LangChain splitter, and the vector
store's `add_document_chunks` (which may raise). -/
structure IngestEnv where
  freshId : String
  readPdf : List Nat → Except String (List String)
  splitter : List Char → Except String (List (List Char))
  addChunks : VectorWriteCall → Except String Unit

/-- `PDFProcessor.process`: extract, chunk, and build the metadata dict;
an extraction error propagates (re-raised by its `except` clause). -/
def pdfProcessorProcess (readPdf : List Nat → Except String (List String))
    (split : List Char → Except String (List (List Char)))
    (C O : Nat) (content : List Nat) : Except String PdfMeta :=
  match extract_text readPdf content with
  | Except.error e => Except.error e
  | Except.ok text =>
      let chunks := chunk_text split C O text.data
      Except.ok
        { total_chunks := chunks.length,
          total_characters := text.length,
          total_words := pyWords text,
          chunks := chunks,
          full_text := text }

/-- `DocumentIngestionPipeline.process_document`: `save_file` (which
generates the fresh document id and writes the bytes to the working area —
no further observable effect), then `get_file_type` (raising on non-PDF
extensions), then the PDF processor, then the document fields are added
with status `processed`; any exception is re-raised to the caller. -/
def process_document (env : IngestEnv) (C O : Nat) (content : List Nat)
    (filename : String) : Except String DocMeta :=
  let document_id := env.freshId
  match get_file_type filename with
  | Except.error e => Except.error e
  | Except.ok file_type =>
    match pdfProcessorProcess env.readPdf env.splitter C O content with
    | Except.error e => Except.error e
    | Except.ok pm =>
        Except.ok
          { toPdfMeta := pm,
            document_id := document_id,
            filename := filename,
            file_type := file_type,
            status := "processed" }

/-- Pydantic `DocumentUploadResponse`. -/
structure DocumentUploadResponse where
  document_id : String
  filename : String
  document_type : String
  status : String
  metadata : List (String × MetaVal)
deriving DecidableEq, Repr

/-- `self.document_store[k] = v` — Python dict assignment on the in-memory
document registry (association list with overwrite). -/
def storeInsert (store : List (String × DocMeta)) (k : String) (v : DocMeta) :
    List (String × DocMeta) :=
  (k, v) :: store.filter (fun p => p.1 ≠ k)

/-- `document_id in self.document_store` / `self.document_store[document_id]`
— Python dict lookup on the registry. -/
def storeLookup (store : List (String × DocMeta)) (k : String) : Option DocMeta :=
  match store with
  | [] => none
  | p :: rest => if p.1 = k then some p.2 else storeLookup rest k

/-- The observable outcome of `upload_document`: the returned response, the
document registry afterwards, and the `add_document_chunks` calls made. -/
structure UploadOutcome where
  response : DocumentUploadResponse
  store : List (String × DocMeta)
  writeCalls : List VectorWriteCall
deriving DecidableEq, Repr

/-- The error `DocumentUploadResponse` built by the `except` clause of
`upload_document` (empty id, literal type `pdf`, status `error`). -/
def uploadErrorResponse (filename e : String) : DocumentUploadResponse :=
  { document_id := "", filename := filename, document_type := "pdf",
    status := "error", metadata := [("error", MetaVal.str e)] }

/-- The success `DocumentUploadResponse` built by `upload_document`. -/
def uploadOkResponse (md : DocMeta) (filename : String) (fileSize : Nat) :
    DocumentUploadResponse :=
  { document_id := md.document_id, filename := filename,
    document_type := md.file_type, status := "processed",
    metadata :=
      [("total_chunks", MetaVal.num md.total_chunks),
       ("total_words", MetaVal.num md.total_words),
       ("file_size", MetaVal.num fileSize)] }

/-- `SimpleRAGChatbot.upload_document`: process the document, register it in
the in-memory store, and — when it has chunks — write them to the vector
store; any exception (unsupported type, extraction failure, vector-store
write failure) falls into the `except` clause, which returns the error
response but rolls nothing back. -/
def upload_document (env : IngestEnv) (C O : Nat)
    (store : List (String × DocMeta)) (content : List Nat)
    (filename : String) : UploadOutcome :=
  match process_document env C O content filename with
  | Except.error e => ⟨uploadErrorResponse filename e, store, []⟩
  | Except.ok md =>
    let store1 := storeInsert store md.document_id md
    if md.chunks.isEmpty then
      ⟨uploadOkResponse md filename content.length, store1, []⟩
    else
      let call : VectorWriteCall :=
        ⟨md.document_id, md.chunks, md.filename, md.file_type, md.total_chunks⟩
      match env.addChunks call with
      | Except.error e => ⟨uploadErrorResponse filename e, store1, [call]⟩
      | Except.ok _ => ⟨uploadOkResponse md filename content.length, store1, [call]⟩

/-! ### The recursive splitter, modelled from the spec

The primary path of `chunk_text` delegates to LangChain's
`RecursiveCharacterTextSplitter` (configured with separators
`["\n\n", "\n", " ", ""]`), a third-party library whose implementation is not
part of this repository's sources; the definitions below model the algorithm
from the specification's words. -/

/-- Character-boundary splitting into windows of at most `C` characters (the
last separator, the empty string). Fuel-indexed to stay structurally
recursive; `sliceEvery` supplies fuel `s.length`, sufficient whenever
`C ≥ 1`. -/
def sliceEveryAux (C : Nat) : Nat → List Char → List (List Char)
  | _, [] => []
  | 0, _ => []
  | fuel + 1, s => s.take C :: sliceEveryAux C fuel (s.drop C)

/-- Modelled from the spec: the character-boundary level of the recursive
splitter — fixed windows of `C` characters. -/
def sliceEvery (C : Nat) (s : List Char) : List (List Char) :=
  sliceEveryAux C s.length s

/-- Splits a text on a separator, keeping each separator occurrence attached
to the end of the piece it terminates, so that the pieces concatenate back to
the text. `acc` holds the current piece reversed. -/
def splitKeepGo (sep : List Char) : List Char → List Char → List (List Char)
  | [], acc => if acc.isEmpty then [] else [acc.reverse]
  | c :: rest, acc =>
      let acc2 := c :: acc
      if sep ≠ [] ∧ List.isPrefixOf sep.reverse acc2 then
        acc2.reverse :: splitKeepGo sep rest []
      else
        splitKeepGo sep rest acc2

/-- Modelled from the spec: splitting the text at every occurrence of one
separator (content-preserving: the separators stay inside the pieces). -/
def splitKeep (sep : List Char) (s : List Char) : List (List Char) :=
  splitKeepGo sep s []

/-- Modelled from the spec: the recursive splitting of the Chunker —
"recursively attempt to split on a priority list of separators … preferring
the coarsest separator that still produces pieces ≤ C; when a produced piece
exceeds C, recurse with the next separator", with the character boundary as
the last resort and an empty input yielding an empty sequence. -/
def recPieces (C : Nat) : List (List Char) → List Char → List (List Char)
  | [], s => sliceEvery C s
  | sep :: rest, s =>
      if s.length ≤ C then (if s.isEmpty then [] else [s])
      else ((splitKeep sep s).map (fun p => recPieces C rest p)).flatten

/-- The separator priority list configured for the Chunker: paragraph break,
line break, space (the final character boundary is `recPieces`' base case). -/
def chunkSeparators : List (List Char) := [['\n', '\n'], ['\n'], [' ']]

/-- The last `O` characters of a piece — the trailing context carried into
the next chunk. -/
def takeRight (O : Nat) (l : List Char) : List Char := l.drop (l.length - O)

/-- Prepends to each piece the trailing `O` characters of its predecessor. -/
def overlapAux (O : Nat) (prev : List Char) : List (List Char) → List (List Char)
  | [] => []
  | p :: ps => (takeRight O prev ++ p) :: overlapAux O p ps

/-- Modelled from the spec: "Consecutive chunks overlap by O characters of
trailing/leading context" — the first chunk is the first piece, each later
chunk is its piece preceded by the predecessor piece's trailing context. -/
def withOverlap (O : Nat) : List (List Char) → List (List Char)
  | [] => []
  | p :: ps => p :: overlapAux O p ps

/-- Modelled from the spec: the Chunker — recursive splitting into pieces of
at most `C` characters followed by the `O`-character overlap decoration. -/
def chunkSpec (C O : Nat) (s : List Char) : List (List Char) :=
  withOverlap O (recPieces C chunkSeparators s)

/-- Removes from each chunk after the first the overlapping portion it
shares with its predecessor; `prevBody` tracks how many characters of the
previous chunk were its own (non-overlap) content. -/
def stripGo (O : Nat) (prevBody : Nat) : List (List Char) → List (List Char)
  | [] => []
  | c :: cs =>
      let k := min O prevBody
      c.drop k :: stripGo O (c.length - k) cs

/-- Concatenating the chunks "after removing the overlapping portions":
the first chunk whole, each later chunk minus the overlap prepended to it. -/
def stripOverlaps (O : Nat) : List (List Char) → List (List Char)
  | [] => []
  | c :: cs => c :: stripGo O c.length cs

deriving instance DecidableEq for Except

/-! ## Theorems -/

/-- C2: a chat request whose message trims to the empty string returns
immediately with the fixed prompting message and an empty sources list, and
no collaborator call at all is made — in particular no retrieval call. -/
theorem chat_empty_message_short_circuit (env : ChatEnv) (req : ChatRequest)
    (h : pyStrip req.message = "") :
    process_chat_message env req =
      ({ response := "Please provide a question about your uploaded documents.",
         sources := [],
         metadata := [("error", MetaVal.str "Empty message")] }, [])
    ∧ ∀ q k d, CallEvent.search q k d ∉ (process_chat_message env req).2 := by
  have hbody :
      process_chat_message env req =
        ({ response := "Please provide a question about your uploaded documents.",
           sources := [],
           metadata := [("error", MetaVal.str "Empty message")] }, []) := by
    unfold process_chat_message chatTryBody
    simp [h]
  refine ⟨hbody, ?_⟩
  intro q k d hmem
  rw [hbody] at hmem
  exact absurd hmem (List.not_mem_nil _)

/-- Witness for C2 at a whitespace-only message. -/
theorem chat_empty_message_short_circuit_witness :
    process_chat_message
      ⟨5, fun _ _ _ => Except.ok [], fun _ _ => Except.ok "hi"⟩
      ⟨"   ", none, []⟩ =
      ({ response := "Please provide a question about your uploaded documents.",
         sources := [],
         metadata := [("error", MetaVal.str "Empty message")] }, []) :=
  (chat_empty_message_short_circuit _ _ (by decide)).1

/-- C1: a chat request with a non-empty trimmed message for which the
vector-store search returns an empty list gets the fixed "no information
found" response with no sources and metadata recording zero context chunks,
after exactly one collaborator call (the search) — no language-model call. -/
theorem chat_no_results_fixed_response (env : ChatEnv) (req : ChatRequest)
    (h1 : pyStrip req.message ≠ "")
    (h2 : env.search (pyStrip req.message) env.rag_top_k_results req.document_id
            = Except.ok []) :
    process_chat_message env req =
      ({ response := "I couldn\x27t find relevant information in the uploaded documents to answer your question. Please make sure you have uploaded PDF documents first.",
         sources := [],
         metadata := [("context_chunks_found", MetaVal.num 0)] },
       [CallEvent.search (pyStrip req.message) env.rag_top_k_results req.document_id])
    ∧ ∀ s u, CallEvent.llm s u ∉ (process_chat_message env req).2 := by
  have hbody :
      process_chat_message env req =
        ({ response := "I couldn\x27t find relevant information in the uploaded documents to answer your question. Please make sure you have uploaded PDF documents first.",
           sources := [],
           metadata := [("context_chunks_found", MetaVal.num 0)] },
         [CallEvent.search (pyStrip req.message) env.rag_top_k_results req.document_id]) := by
    unfold process_chat_message chatTryBody
    simp [h1, h2]
  refine ⟨hbody, ?_⟩
  intro s u hmem
  rw [hbody] at hmem
  simp at hmem

/-- Witness for C1 at a concrete request and an always-empty search. -/
theorem chat_no_results_fixed_response_witness :
    process_chat_message
      ⟨5, fun _ _ _ => Except.ok [], fun _ _ => Except.ok "hi"⟩
      ⟨"What is revenue?", none, []⟩ =
      ({ response := "I couldn\x27t find relevant information in the uploaded documents to answer your question. Please make sure you have uploaded PDF documents first.",
         sources := [],
         metadata := [("context_chunks_found", MetaVal.num 0)] },
       [CallEvent.search "What is revenue?" 5 none]) :=
  (chat_no_results_fixed_response _ _ (by decide) rfl).1

/-- Any exception escaping the `try` block of `process_chat_message` is one
raised by the vector-store search (the generation call catches its own). -/
lemma chatTryBody_error_from_search (env : ChatEnv) (req : ChatRequest)
    (e : String) (evs : List CallEvent)
    (h : chatTryBody env req = (Except.error e, evs)) :
    env.search (pyStrip req.message) env.rag_top_k_results req.document_id
      = Except.error e := by
  unfold chatTryBody at h
  by_cases h1 : pyStrip req.message = ""
  · simp [h1] at h
  · rw [if_neg h1] at h
    cases hs : env.search (pyStrip req.message) env.rag_top_k_results req.document_id with
    | error e2 =>
        rw [hs] at h
        cases h
        rfl
    | ok results =>
        rw [hs] at h
        by_cases hr : results.isEmpty <;> simp [hr] at h

/-- C9: `process_chat_message` never lets an exception escape: either the
`try` block raised — and only the vector-store search can raise — in which
case the handler returns the fixed error `ChatResponse`, or the block's own
well-formed `ChatResponse` is returned unchanged. -/
theorem chat_never_raises (env : ChatEnv) (req : ChatRequest) :
    (∃ e, (chatTryBody env req).1 = Except.error e
       ∧ env.search (pyStrip req.message) env.rag_top_k_results req.document_id
           = Except.error e
       ∧ (process_chat_message env req).1 =
           { response := "I encountered an error while processing your request. Please try again.",
             sources := [],
             metadata := [("error", MetaVal.str e)] })
    ∨ (∃ r, (chatTryBody env req).1 = Except.ok r
       ∧ (process_chat_message env req).1 = r) := by
  cases hb : chatTryBody env req with
  | mk res evs =>
    cases res with
    | error e =>
        left
        refine ⟨e, rfl, chatTryBody_error_from_search env req e evs hb, ?_⟩
        · unfold process_chat_message
          rw [hb]
    | ok r =>
        right
        refine ⟨r, rfl, ?_⟩
        · unfold process_chat_message
          rw [hb]

lemma pyJoin_cons (sep x : String) (l : List String) (h : l ≠ []) :
    pyJoin sep (x :: l) = x ++ sep ++ pyJoin sep l := by
  cases l with
  | nil => exact absurd rfl h
  | cons y t => rfl

lemma contextParts_ne_nil (i : Nat) (r : SearchResult) (rest : List SearchResult) :
    contextParts i (r :: rest) ≠ [] := by
  simp [contextParts]

lemma sourceBlocks_ne_nil (i : Nat) (r : SearchResult) (rest : List SearchResult) :
    sourceBlocks i (r :: rest) ≠ [] := by
  simp [sourceBlocks]

lemma newline_pair (X : String) : "\n" ++ ("\n" ++ X) = "\n\n" ++ X := by
  rw [← String.append_assoc]
  have h : ("\n" ++ "\n" : String) = "\n\n" := by decide
  rw [h]

/-- Joining the flat parts list written by the loop of
`_prepare_context_from_search_results` with single newlines equals joining
the labeled blocks with blank lines, plus a trailing newline. -/
lemma contextParts_join (rs : List SearchResult) :
    ∀ i, rs ≠ [] →
      pyJoin "\n" (contextParts i rs) = pyJoin "\n\n" (sourceBlocks i rs) ++ "\n" := by
  induction rs with
  | nil => intro i h; exact absurd rfl h
  | cons r rest ih =>
    intro i _
    cases rest with
    | nil =>
      show pyJoin "\n" [_, _, ""] = pyJoin "\n\n" [_] ++ "\n"
      simp [pyJoin, sourceBlocks, String.append_assoc]
    | cons r2 rest2 =>
      rw [contextParts, pyJoin_cons _ _ _ (by simp [contextParts]),
        pyJoin_cons _ _ _ (by simp [contextParts]),
        pyJoin_cons _ _ _ (contextParts_ne_nil _ r2 rest2),
        ih (i + 1) (by simp)]
      conv_rhs => rw [sourceBlocks, pyJoin_cons _ _ _ (sourceBlocks_ne_nil _ r2 rest2)]
      simp only [String.append_assoc, String.empty_append]
      rw [newline_pair]

/-- C6: on a non-empty result sequence the context string is the fixed header
banner, a newline, then — for exactly the first three results in gateway
order — the blocks `Source N (from filename):` + raw content, joined by a
blank line, plus a trailing newline. -/
theorem context_assembly_shape (rs : List SearchResult) (h : rs ≠ []) :
    _prepare_context_from_search_results rs =
      "=== RELEVANT DOCUMENT CONTENT ===" ++ "\n"
        ++ pyJoin "\n\n" (sourceBlocks 0 (rs.take 3)) ++ "\n" := by
  obtain ⟨r, rest, rfl⟩ := List.exists_cons_of_ne_nil h
  unfold _prepare_context_from_search_results
  rw [if_neg (by simp)]
  rw [pyJoin_cons _ _ _ (by simp [List.take, contextParts])]
  rw [contextParts_join _ 0 (by simp [List.take])]
  simp [String.append_assoc]

/-- Witness for C6 on four concrete results: only the first three appear,
in order, under the banner. -/
theorem context_assembly_shape_witness :
    _prepare_context_from_search_results
      [⟨some "c1", some ⟨some "f1.pdf", some "pdf"⟩, some 9⟩,
       ⟨some "c2", none, none⟩,
       ⟨some "c3", some ⟨some "f3.pdf", none⟩, some 7⟩,
       ⟨some "c4", some ⟨some "f4.pdf", none⟩, some 6⟩] =
      "=== RELEVANT DOCUMENT CONTENT ===\nSource 1 (from f1.pdf):\nc1\n\nSource 2 (from Unknown):\nc2\n\nSource 3 (from f3.pdf):\nc3\n" :=
  (context_assembly_shape _ (by decide)).trans (by decide)

/-- C7: the sources list has one entry per search result, in the same order,
carrying the result metadata, relevance score and document type, with the
content kept whole at up to 200 characters and truncated to the first 200
plus an ellipsis beyond that. -/
theorem prepare_sources_spec (rs : List SearchResult) :
    (_prepare_sources rs).length = rs.length
    ∧ ∀ k (hk : k < rs.length) (hk2 : k < (_prepare_sources rs).length),
        ((_prepare_sources rs).get ⟨k, hk2⟩).metadata = metaOf (rs.get ⟨k, hk⟩)
        ∧ ((_prepare_sources rs).get ⟨k, hk2⟩).relevance_score
            = scoreOf (rs.get ⟨k, hk⟩)
        ∧ ((_prepare_sources rs).get ⟨k, hk2⟩).document_type
            = fileTypeOf (rs.get ⟨k, hk⟩)
        ∧ ((contentOf (rs.get ⟨k, hk⟩)).length ≤ 200 →
            ((_prepare_sources rs).get ⟨k, hk2⟩).content = contentOf (rs.get ⟨k, hk⟩))
        ∧ (200 < (contentOf (rs.get ⟨k, hk⟩)).length →
            ((_prepare_sources rs).get ⟨k, hk2⟩).content
              = (contentOf (rs.get ⟨k, hk⟩)).take 200 ++ "...") := by
  induction rs with
  | nil =>
    refine ⟨rfl, ?_⟩
    intro k hk
    exact absurd hk (Nat.not_lt_zero k)
  | cons r rest ih =>
    refine ⟨by simpa [_prepare_sources] using ih.1, ?_⟩
    intro k hk hk2
    cases k with
    | zero =>
      refine ⟨rfl, rfl, rfl, ?_, ?_⟩
      · intro hle
        have hle2 : (contentOf r).length ≤ 200 := hle
        show (if (contentOf r).length > 200 then (contentOf r).take 200 ++ "..."
              else contentOf r) = contentOf r
        rw [if_neg (by omega)]
      · intro hgt
        have hgt2 : 200 < (contentOf r).length := hgt
        show (if (contentOf r).length > 200 then (contentOf r).take 200 ++ "..."
              else contentOf r) = (contentOf r).take 200 ++ "..."
        rw [if_pos (by omega)]
    | succ k =>
      exact ih.2 k (Nat.lt_of_succ_lt_succ hk)
        (by simpa [_prepare_sources] using hk2)

set_option maxRecDepth 8192 in
/-- Witness for C7 at a single result whose content is 201 characters long:
it is truncated to 200 characters plus an ellipsis and its metadata is
carried over. -/
theorem prepare_sources_spec_witness :
    200 < (contentOf ⟨some (String.mk (List.replicate 201 'x')),
            some ⟨some "f.pdf", some "pdf"⟩, some 2⟩).length
    ∧ ((_prepare_sources [⟨some (String.mk (List.replicate 201 'x')),
            some ⟨some "f.pdf", some "pdf"⟩, some 2⟩]).get ⟨0, by decide⟩).content
        = (contentOf ⟨some (String.mk (List.replicate 201 'x')),
            some ⟨some "f.pdf", some "pdf"⟩, some 2⟩).take 200 ++ "..."
    ∧ ((_prepare_sources [⟨some (String.mk (List.replicate 201 'x')),
            some ⟨some "f.pdf", some "pdf"⟩, some 2⟩]).get ⟨0, by decide⟩).metadata
        = metaOf ⟨some (String.mk (List.replicate 201 'x')),
            some ⟨some "f.pdf", some "pdf"⟩, some 2⟩ := by
  have h := (prepare_sources_spec [⟨some (String.mk (List.replicate 201 'x')),
    some ⟨some "f.pdf", some "pdf"⟩, some 2⟩]).2 0 (by decide) (by decide)
  exact ⟨by decide, h.2.2.2.2 (by decide), h.1⟩

/-- C4 as stated is false on the code: a readable PDF with no extractable
text layer (the reader succeeds, every page text is empty) does NOT make
`extract_text` fail — it silently succeeds with the empty string, which the
callers later register as a processed zero-chunk document. -/
theorem extract_text_counterexample :
    extract_text (fun _ => Except.ok ["", ""]) [] = Except.ok ""
    ∧ ∀ e, extract_text (fun _ => Except.ok ["", ""]) [] ≠ Except.error e := by
  refine ⟨by decide, ?_⟩
  intro e h
  have h2 := (by decide :
    extract_text (fun _ => Except.ok ["", ""]) [] = Except.ok "").symm.trans h
  exact Except.noConfusion h2

lemma foldl_append_newline (pages : List String) (a : String) :
    pages.foldl (fun text p => text ++ p ++ "\n") a = a ++ pagesConcat pages := by
  induction pages generalizing a with
  | nil => simp [pagesConcat]
  | cons p ps ih =>
      rw [List.foldl_cons, ih, pagesConcat]
      simp [String.append_assoc]

/-- C4 amended: `extract_text` returns the page texts, each followed by a
newline, concatenated in page order and stripped of leading/trailing
whitespace; it raises exactly when the PDF reader raises (unreadable byte
stream); a readable PDF whose pages carry no text yields `ok ""`. -/
theorem extract_text_amended (rp : List Nat → Except String (List String))
    (c : List Nat) :
    ((∃ e, extract_text rp c = Except.error e) ↔ (∃ e, rp c = Except.error e))
    ∧ ∀ pages, rp c = Except.ok pages →
        extract_text rp c = Except.ok (pyStrip (pagesConcat pages)) := by
  cases hc : rp c with
  | error e =>
    refine ⟨⟨fun _ => ⟨e, rfl⟩, fun _ => ⟨e, ?_⟩⟩, ?_⟩
    · unfold extract_text
      rw [hc]
    · intro pages hp
      cases hp
  | ok pages =>
    have hok : extract_text rp c = Except.ok (pyStrip (pagesConcat pages)) := by
      unfold extract_text
      rw [hc]
      show Except.ok (pyStrip (List.foldl (fun text p => text ++ p ++ "\n") "" pages))
        = Except.ok (pyStrip (pagesConcat pages))
      rw [foldl_append_newline]
      rw [show ("" ++ pagesConcat pages : String) = pagesConcat pages from
        String.empty_append _]
    refine ⟨⟨?_, ?_⟩, ?_⟩
    · rintro ⟨e, he⟩
      rw [hok] at he
      cases he
    · rintro ⟨e, he⟩
      cases he
    · intro pages2 hp
      cases hp
      exact hok

/-- Witness for the amended C4 on a two-page readable PDF. -/
theorem extract_text_amended_witness :
    extract_text (fun _ => Except.ok ["a", "b"]) ([] : List Nat)
      = Except.ok "a\nb" := by
  have h := (extract_text_amended (fun _ => Except.ok ["a", "b"]) []).2
    ["a", "b"] rfl
  exact h.trans (by decide)

/-- C5: an upload whose filename extension is not `.pdf` (case-insensitive)
yields the error response carrying the unsupported-type message, leaves the
document registry untouched, and makes no vector-store write call. -/
theorem upload_rejects_non_pdf (env : IngestEnv) (C O : Nat)
    (store : List (String × DocMeta)) (content : List Nat) (filename : String)
    (h : String.mk ((pathSuffix filename.data).map Char.toLower) ≠ ".pdf") :
    upload_document env C O store content filename =
      ⟨uploadErrorResponse filename
          ("Unsupported file type: "
            ++ String.mk ((pathSuffix filename.data).map Char.toLower)
            ++ ". Only PDF files are supported."),
        store, []⟩ := by
  unfold upload_document process_document get_file_type
  simp [h]

/-- Witness for C5 at a `.txt` upload. -/
theorem upload_rejects_non_pdf_witness :
    upload_document
      ⟨"d1", fun _ => Except.ok ["x"], fun _ => Except.ok [], fun _ => Except.ok ()⟩
      1000 200 [] [37] "report.txt" =
      ⟨uploadErrorResponse "report.txt"
          "Unsupported file type: .txt. Only PDF files are supported.",
        [], []⟩ := by
  have h := upload_rejects_non_pdf
    ⟨"d1", fun _ => Except.ok ["x"], fun _ => Except.ok [], fun _ => Except.ok ()⟩
    1000 200 [] [37] "report.txt" (by decide)
  exact h.trans (by decide)

lemma process_document_ok_status (env : IngestEnv) (C O : Nat)
    (content : List Nat) (filename : String) (md : DocMeta)
    (h : process_document env C O content filename = Except.ok md) :
    md.status = "processed" := by
  unfold process_document at h
  cases h1 : get_file_type filename with
  | error e =>
      rw [h1] at h
      cases h
  | ok ft =>
      rw [h1] at h
      cases h2 : pdfProcessorProcess env.readPdf env.splitter C O content with
      | error e =>
          rw [h2] at h
          cases h
      | ok pm =>
          rw [h2] at h
          cases h
          rfl

/-- C10: when `add_document_chunks` raises after the document was inserted
into the in-memory registry, `upload_document` answers with status `error`
and an empty `document_id`, yet the registry still holds the document with
status `processed` — registration is not rolled back. -/
theorem upload_write_failure_registry_mismatch (env : IngestEnv) (C O : Nat)
    (store : List (String × DocMeta)) (content : List Nat) (filename : String)
    (md : DocMeta) (e : String)
    (hproc : process_document env C O content filename = Except.ok md)
    (hchunks : md.chunks ≠ [])
    (hadd : env.addChunks
        ⟨md.document_id, md.chunks, md.filename, md.file_type, md.total_chunks⟩
        = Except.error e) :
    (upload_document env C O store content filename).response.status = "error"
    ∧ (upload_document env C O store content filename).response.document_id = ""
    ∧ storeLookup (upload_document env C O store content filename).store
        md.document_id = some md
    ∧ md.status = "processed" := by
  have hst := process_document_ok_status env C O content filename md hproc
  have hup : upload_document env C O store content filename =
      ⟨uploadErrorResponse filename e, storeInsert store md.document_id md,
        [⟨md.document_id, md.chunks, md.filename, md.file_type, md.total_chunks⟩]⟩ := by
    unfold upload_document
    rw [hproc]
    simp only [List.isEmpty_iff, hchunks, if_neg, hadd]
    simp [hchunks, hadd]
  rw [hup]
  refine ⟨rfl, rfl, ?_, hst⟩
  show storeLookup (storeInsert store md.document_id md) md.document_id = some md
  unfold storeInsert storeLookup
  rw [if_pos rfl]

/-- Witness for C10: a one-chunk PDF upload whose vector-store write fails. -/
theorem upload_write_failure_registry_mismatch_witness :
    (upload_document
        ⟨"d1", fun _ => Except.ok ["hello world"],
          fun _ => Except.ok [['h', 'i']], fun _ => Except.error "pinecone down"⟩
        1000 200 [] [37] "a.pdf").response.status = "error"
    ∧ (upload_document
        ⟨"d1", fun _ => Except.ok ["hello world"],
          fun _ => Except.ok [['h', 'i']], fun _ => Except.error "pinecone down"⟩
        1000 200 [] [37] "a.pdf").response.document_id = ""
    ∧ storeLookup (upload_document
        ⟨"d1", fun _ => Except.ok ["hello world"],
          fun _ => Except.ok [['h', 'i']], fun _ => Except.error "pinecone down"⟩
        1000 200 [] [37] "a.pdf").store "d1"
        = some ⟨⟨1, 11, 2, [['h', 'i']], "hello world"⟩, "d1", "a.pdf", "pdf", "processed"⟩
    ∧ DocMeta.status ⟨⟨1, 11, 2, [['h', 'i']], "hello world"⟩, "d1", "a.pdf", "pdf", "processed"⟩
        = "processed" :=
  upload_write_failure_registry_mismatch
    ⟨"d1", fun _ => Except.ok ["hello world"],
      fun _ => Except.ok [['h', 'i']], fun _ => Except.error "pinecone down"⟩
    1000 200 [] [37] "a.pdf"
    ⟨⟨1, 11, 2, [['h', 'i']], "hello world"⟩, "d1", "a.pdf", "pdf", "processed"⟩
    "pinecone down" (by decide) (by decide) (by decide)

/-- C8: when the recursive splitter raises, `chunk_text` returns the naive
fixed-window slices `text[i : i+C]` at strides of `C − O` starting from 0,
in order, covering the text length, and every fallback chunk has length at
most `C`. -/
theorem chunk_text_fallback_slices
    (split : List Char → Except String (List (List Char)))
    (C O : Nat) (t : List Char) (e : String)
    (hsp : split t = Except.error e) (_hO : O < C) :
    (chunk_text split C O t).length = (t.length + (C - O) - 1) / (C - O)
    ∧ (∀ k, k < (chunk_text split C O t).length →
        (chunk_text split C O t)[k]? = some ((t.drop ((C - O) * k)).take C))
    ∧ ∀ c ∈ chunk_text split C O t, c.length ≤ C := by
  have hct : chunk_text split C O t =
      (List.range' 0 ((t.length + (C - O) - 1) / (C - O)) (C - O)).map
        (fun i => (t.drop i).take C) := by
    unfold chunk_text
    rw [hsp]
  refine ⟨?_, ?_, ?_⟩
  · rw [hct]
    simp [List.length_range']
  · intro k hk
    have hk2 : k < (t.length + (C - O) - 1) / (C - O) := by
      rw [hct] at hk
      simpa [List.length_range'] using hk
    rw [hct]
    rw [List.getElem?_map, List.getElem?_range' _ _ hk2]
    simp
  · rw [hct]
    intro c hc
    obtain ⟨i, _, rfl⟩ := List.mem_map.1 hc
    calc ((t.drop i).take C).length ≤ C := by
          rw [List.length_take]
          exact min_le_left _ _

/-- Witness for C8 at `C = 3`, `O = 1`, a five-character text and a failing
splitter: the slices are `abc`, `cde`, `e`. -/
theorem chunk_text_fallback_slices_witness :
    (chunk_text (fun _ => Except.error "boom") 3 1 "abcde".data).length = 3
    ∧ (chunk_text (fun _ => Except.error "boom") 3 1 "abcde".data)[1]?
        = some ("abcde".data.drop 2 |>.take 3)
    ∧ ∀ c ∈ chunk_text (fun _ => Except.error "boom") 3 1 "abcde".data,
        c.length ≤ 3 := by
  have h := chunk_text_fallback_slices (fun _ => Except.error "boom") 3 1
    "abcde".data "boom" rfl (by decide)
  exact ⟨h.1.trans (by decide), (h.2.1 1 (by decide)).trans (by decide), h.2.2⟩

lemma sliceEveryAux_flatten (C : Nat) (hC : 0 < C) :
    ∀ fuel s, s.length ≤ fuel → (sliceEveryAux C fuel s).flatten = s := by
  intro fuel
  induction fuel with
  | zero =>
    intro s hs
    have h0 : s = [] := List.length_eq_zero.1 (Nat.le_zero.1 hs)
    subst h0
    rfl
  | succ f ih =>
    intro s hs
    cases s with
    | nil => rfl
    | cons c rest =>
      show ((c :: rest).take C :: sliceEveryAux C f ((c :: rest).drop C)).flatten
        = c :: rest
      rw [List.flatten_cons]
      rw [ih ((c :: rest).drop C) (by rw [List.length_drop]; omega)]
      exact List.take_append_drop C (c :: rest)

lemma splitKeepGo_flatten (sep : List Char) :
    ∀ s acc, (splitKeepGo sep s acc).flatten = acc.reverse ++ s := by
  intro s
  induction s with
  | nil =>
    intro acc
    show (if acc.isEmpty then ([] : List (List Char)) else [acc.reverse]).flatten
      = acc.reverse ++ []
    by_cases h : acc.isEmpty
    · rw [if_pos h]
      simp [List.isEmpty_iff.1 h]
    · rw [if_neg h]
      simp
  | cons c rest ih =>
    intro acc
    show (if sep ≠ [] ∧ List.isPrefixOf sep.reverse (c :: acc) then
            (c :: acc).reverse :: splitKeepGo sep rest []
          else splitKeepGo sep rest (c :: acc)).flatten = acc.reverse ++ (c :: rest)
    by_cases h : sep ≠ [] ∧ List.isPrefixOf sep.reverse (c :: acc)
    · rw [if_pos h, List.flatten_cons, ih []]
      simp [List.reverse_cons, List.append_assoc]
    · rw [if_neg h, ih (c :: acc)]
      simp [List.reverse_cons, List.append_assoc]

lemma flatten_flatten_map (f : List Char → List (List Char))
    (ps : List (List Char)) (hf : ∀ p, (f p).flatten = p) :
    ((ps.map f).flatten).flatten = ps.flatten := by
  induction ps with
  | nil => rfl
  | cons p ps ih =>
      rw [List.map_cons, List.flatten_cons, List.flatten_append, hf, ih,
        List.flatten_cons]

lemma recPieces_flatten (C : Nat) (hC : 0 < C) :
    ∀ seps s, (recPieces C seps s).flatten = s := by
  intro seps
  induction seps with
  | nil =>
    intro s
    exact sliceEveryAux_flatten C hC s.length s (Nat.le_refl _)
  | cons sep rest ih =>
    intro s
    show (if s.length ≤ C then (if s.isEmpty then [] else [s])
          else ((splitKeep sep s).map (fun p => recPieces C rest p)).flatten).flatten
      = s
    by_cases h1 : s.length ≤ C
    · rw [if_pos h1]
      by_cases h2 : s.isEmpty
      · rw [if_pos h2]
        simp [List.isEmpty_iff.1 h2]
      · rw [if_neg h2]
        simp
    · rw [if_neg h1, flatten_flatten_map _ _ ih, splitKeep,
        splitKeepGo_flatten sep s []]
      rfl

lemma stripGo_overlapAux (O : Nat) :
    ∀ ps prev, stripGo O prev.length (overlapAux O prev ps) = ps := by
  intro ps
  induction ps with
  | nil => intro prev; rfl
  | cons q qs ih =>
    intro prev
    have hlen : (takeRight O prev).length = min O prev.length := by
      rw [takeRight, List.length_drop]
      omega
    show ((takeRight O prev ++ q).drop (min O prev.length))
          :: stripGo O ((takeRight O prev ++ q).length - min O prev.length)
               (overlapAux O q qs)
        = q :: qs
    rw [← hlen, List.drop_left]
    rw [show (takeRight O prev ++ q).length - (takeRight O prev).length = q.length
      from by rw [List.length_append]; omega]
    rw [ih q]

lemma strip_withOverlap (O : Nat) (ps : List (List Char)) :
    stripOverlaps O (withOverlap O ps) = ps := by
  cases ps with
  | nil => rfl
  | cons p ps =>
    show p :: stripGo O p.length (overlapAux O p ps) = p :: ps
    rw [stripGo_overlapAux O ps p]

/-- C3 (against the spec-modelled Chunker, the concrete splitter being an
external library): for `0 ≤ O < C` and non-empty text, concatenating the
chunks after removing the overlapping portion each chunk shares with its
predecessor reconstructs the input text exactly, in order. -/
theorem chunker_reconstruction (C O : Nat) (hO : O < C) (s : List Char)
    (_hs : s ≠ []) :
    (stripOverlaps O (chunkSpec C O s)).flatten = s := by
  rw [chunkSpec, strip_withOverlap, recPieces_flatten C (by omega)]

/-- Witness for C3 at `C = 5`, `O = 2` on the text `hello world`. -/
theorem chunker_reconstruction_witness :
    (stripOverlaps 2 (chunkSpec 5 2 "hello world".data)).flatten
      = "hello world".data :=
  chunker_reconstruction 5 2 (by decide) "hello world".data (by decide)

end RagBot
